import Mathlib

/-! The OPA authorizer of `pipeline/authz/opa.go`

A shallow embedding of `AuthorizerOPA` (its `Config`, `Validate` and `Authorize`
methods, and `AuthorizerOPAConfiguration.PayloadTemplateID`) together with the
standard-library functions whose results decide what these methods return:
`strings.ReplaceAll`, `http.Header.Get`, `sha256.Sum256` and the `%x` / `%d`
verbs of `fmt`.

External collaborators (the configuration provider, `json.Marshal`, URL parsing
inside `http.NewRequest`, and the HTTP client) are fields of a `World`.  Every
method returns, next to its Go result, the list of calls it made on the provider
and on the HTTP client, in order.

Go strings are modelled by `String`; this covers every Go string that holds
valid UTF-8.
-/

set_option autoImplicit false

namespace Authz

/-! ## Errors -/

/-- Go `error` values that the authorizer can return. -/
inductive Error where
  /-- An error value handed out by an external collaborator (provider, `json`, `net/http`). -/
  | ext (msg : String)
  /-- The sentinel `helper.ErrForbidden`. -/
  | forbidden
  /-- The value of `errors.Errorf`, with its rendered message. -/
  | errorf (msg : String)
  /-- The value of `errors.WithStack e`. -/
  | withStack (e : Error)
  /-- The value of `NewErrAuthorizerNotEnabled` for the authorizer with identifier `id`. -/
  | notEnabled (id : String)
  /-- The value of `NewErrAuthorizerMisconfigured` for identifier `id`, wrapping `cause`. -/
  | misconfigured (id : String) (cause : Error)
  deriving DecidableEq, Repr

/-- Modelled from the spec: `helper.ErrForbidden`, declared in package `helper`, is the
distinguished "forbidden" error with which a denial is signalled. -/
def ErrForbidden : Error := Error.forbidden

/-- Modelled from the spec: `NewErrAuthorizerNotEnabled`, declared next to the `Authorizer`
interface, builds the `AuthorizerNotEnabled` error of the authorizer it is given; the
authorizer enters through its identifier. -/
def NewErrAuthorizerNotEnabled (id : String) : Error := Error.notEnabled id

/-- Modelled from the spec: `NewErrAuthorizerMisconfigured`, declared next to the `Authorizer`
interface, builds the `AuthorizerMisconfigured` error of the authorizer it is given and wraps
the underlying cause. -/
def NewErrAuthorizerMisconfigured (id : String) (cause : Error) : Error :=
  Error.misconfigured id cause

/-- The constant `http.StatusOK`. -/
def StatusOK : Int := 200

/-- The constant `http.StatusForbidden`. -/
def StatusForbidden : Int := 403

/-- The `%d` verb of `fmt` on an `int`. -/
def fmtD (n : Int) : String := toString n

/-! ## `strings.ReplaceAll` -/

/-- One left-to-right pass over the characters of the subject for a non-empty `old`.
The first argument counts the characters of a matched occurrence that are still to be
skipped.  At a position where `old` starts, `new` is written and the occurrence is skipped,
so that the search resumes right after it (occurrences do not overlap); elsewhere the
character is copied. -/
def replaceScan (old new : List Char) : Nat → List Char → List Char
  | _, [] => []
  | skip + 1, _ :: cs => replaceScan old new skip cs
  | 0, c :: cs =>
    if old.isPrefixOf (c :: cs) then new ++ replaceScan old new (old.length - 1) cs
    else c :: replaceScan old new 0 cs

/-- The function `strings.ReplaceAll s old new`: a copy of `s` with all non-overlapping
instances of `old` replaced by `new`.  An empty `old` matches at the beginning of the string
and after each character. -/
def ReplaceAll (s old new : String) : String :=
  if old.data = [] then String.mk (new.data ++ s.data.flatMap (fun c => c :: new.data))
  else String.mk (replaceScan old.data new.data 0 s.data)

/-- The function `strings.Contains`, as a proposition. -/
def Contains (s substr : String) : Prop := substr.data <:+: s.data

instance (s substr : String) : Decidable (Contains s substr) :=
  inferInstanceAs (Decidable (substr.data <:+: s.data))

/-! ## `http.Header` -/

/-- The type `http.Header`, a map from header names to their values. -/
abbrev Header := List (String × List String)

/-- The bytes that `textproto` accepts in a header field name (the `token` characters). -/
def validHeaderFieldByte (c : Char) : Bool :=
  c.isAlphanum || [33, 35, 36, 37, 38, 39, 42, 43, 45, 46, 94, 95, 96, 124, 126].contains c.toNat

/-- The loop of `textproto.canonicalMIMEHeaderKey`: the first letter and every letter after
a hyphen is made upper case, every other letter lower case. -/
def canonicalScan : Bool → List Char → List Char
  | _, [] => []
  | upper, c :: cs =>
    let d := if upper then c.toUpper else c.toLower
    d :: canonicalScan (d == '-') cs

/-- The function `textproto.CanonicalMIMEHeaderKey`: a name with a byte that is not valid
in a header field name is returned unchanged. -/
def CanonicalMIMEHeaderKey (s : String) : String :=
  if s.data.all validHeaderFieldByte then String.mk (canonicalScan true s.data) else s

/-- The method `http.Header.Get`: the first value stored under the canonical form of `key`,
and `""` when there is none. -/
def Header.Get (h : Header) (key : String) : String :=
  match h.lookup (CanonicalMIMEHeaderKey key) with
  | some (v :: _) => v
  | _ => ""

/-! ## Requests, responses and the policy input -/

/-- The field `URL` of an inbound `http.Request`; only `Path` is read. -/
structure URL where
  Path : String
  deriving DecidableEq, Repr

/-- The inbound `http.Request`, with the fields that `Authorize` reads. -/
structure Request where
  Method : String
  URL : URL
  Header : Header
  deriving DecidableEq, Repr

/-- The type `authn.AuthenticationSession`; `Authorize` accepts it and does not read it. -/
structure AuthenticationSession where
  Subject : String
  deriving DecidableEq, Repr

/-- The type `pipeline.Rule`; `Authorize` ignores this argument. -/
structure Rule where
  ID : String
  deriving DecidableEq, Repr

/-- The outbound `http.Request` that `http.NewRequest` builds and `Authorize` sends. -/
structure OutRequest where
  Method : String
  URL : String
  Header : Header
  Body : String
  deriving DecidableEq, Repr

/-- The `http.Response` that the client hands back. -/
structure Response where
  StatusCode : Int
  Body : String
  deriving DecidableEq, Repr

/-- A value of type `interface{}` as `Authorize` builds it: a string, or a
`map[string]interface{}` given by its entries. -/
inductive JsonValue where
  | str (s : String)
  | obj (entries : List (String × JsonValue))
  deriving Repr

/-- The struct `AuthorizerOPAConfiguration`. -/
structure AuthorizerOPAConfiguration where
  Remote : String
  deriving DecidableEq, Repr

/-! ## The collaborators -/

/-- The interface `configuration.Provider`, with the two methods the authorizer calls. -/
structure Provider where
  /-- The method `AuthorizerIsEnabled(id)`. -/
  AuthorizerIsEnabled : String → Bool
  /-- The method `AuthorizerConfig(id, config, &c)`: merge and decode, or the cause of failure. -/
  AuthorizerConfig : String → String → Except Error AuthorizerOPAConfiguration

/-- Everything outside the authorizer that its methods call. -/
structure World where
  /-- The field `a.c`. -/
  c : Provider
  /-- The function `json.Marshal` on the policy input. -/
  Marshal : JsonValue → Except Error String
  /-- The URL check of `http.NewRequest`: the parsed URL, or the parse error. -/
  ParseURL : String → Except Error String
  /-- The method `a.client.Do`: the response of the remote engine, or a transport error. -/
  Do : OutRequest → Except Error Response

/-- A call made by the authorizer on one of its collaborators. -/
inductive Event where
  /-- A call of `a.c.AuthorizerIsEnabled(id)`. -/
  | isEnabled (id : String)
  /-- A call of `a.c.AuthorizerConfig(id, config, &c)`. -/
  | authorizerConfig (id : String) (config : String)
  /-- A call of `a.client.Do(req)`: the outbound HTTP request. -/
  | httpDo (req : OutRequest)
  /-- The deferred `res.Body.Close()`. -/
  | bodyClose
  deriving DecidableEq, Repr

/-- The returned Go `error` (`none` is `nil`) and the calls made, in order. -/
structure Outcome where
  err : Option Error
  trace : List Event
  deriving DecidableEq, Repr

/-- Whether an event is an outbound HTTP request. -/
def Event.isHttp : Event → Bool
  | Event.httpDo _ => true
  | _ => false

/-- Whether an event is a call of the provider's merge-and-decode. -/
def Event.isDecode : Event → Bool
  | Event.authorizerConfig _ _ => true
  | _ => false

/-! ## The authorizer -/

/-- The method `GetID`. -/
def GetID : String := "opa"

/-- The method `Config`: the decoded configuration or the error, and the calls made. -/
def Config (w : World) (config : String) :
    Except Error AuthorizerOPAConfiguration × List Event :=
  match w.c.AuthorizerConfig GetID config with
  | Except.error err => (Except.error (NewErrAuthorizerMisconfigured GetID err),
      [Event.authorizerConfig GetID config])
  | Except.ok c => (Except.ok c, [Event.authorizerConfig GetID config])

/-- The method `Validate`. -/
def Validate (w : World) (config : String) : Outcome :=
  if !w.c.AuthorizerIsEnabled GetID then
    ⟨some (NewErrAuthorizerNotEnabled GetID), [Event.isEnabled GetID]⟩
  else
    match Config w config with
    | (Except.error err, t) => ⟨some err, Event.isEnabled GetID :: t⟩
    | (Except.ok _, t) => ⟨none, Event.isEnabled GetID :: t⟩

/-- The `token` entry of the policy input. -/
def token (r : Request) : String :=
  ReplaceAll (r.Header.Get "authorization") "Bearer " ""

/-- The value `bodyJson` that `Authorize` builds from the request. -/
def bodyJson (r : Request) : JsonValue :=
  JsonValue.obj [("input", JsonValue.obj [
    ("path", JsonValue.str r.URL.Path),
    ("method", JsonValue.str r.Method),
    ("token", JsonValue.str (token r))])]

/-- The function `http.NewRequest` for a method that is valid, as `"POST"` is: the request
for the parsed URL with an empty header, or the error of parsing the URL. -/
def NewRequest (w : World) (method url body : String) : Except Error OutRequest :=
  match w.ParseURL url with
  | Except.error err => Except.error err
  | Except.ok u => Except.ok ⟨method, u, [], body⟩

/-- The method `http.Header.Add` on a header that has no value under `key` yet. -/
def OutRequest.addHeader (req : OutRequest) (key value : String) : OutRequest :=
  { req with Header := req.Header ++ [(CanonicalMIMEHeaderKey key, [value])] }

/-- The method `Authorize`. -/
def Authorize (w : World) (r : Request) (_session : AuthenticationSession)
    (config : String) (_rule : Rule) : Outcome :=
  match Config w config with
  | (Except.error err, t) => ⟨some err, t⟩
  | (Except.ok c, t) =>
    match w.Marshal (bodyJson r) with
    | Except.error err => ⟨some (Error.withStack err), t⟩
    | Except.ok body =>
      match NewRequest w "POST" c.Remote body with
      | Except.error err => ⟨some (Error.withStack err), t⟩
      | Except.ok req0 =>
        let req := req0.addHeader "Content-Type" "application/json"
        match w.Do req with
        | Except.error err => ⟨some (Error.withStack err), t ++ [Event.httpDo req]⟩
        | Except.ok res =>
          let t := t ++ [Event.httpDo req, Event.bodyClose]
          if res.StatusCode = StatusForbidden then
            ⟨some (Error.withStack ErrForbidden), t⟩
          else if res.StatusCode ≠ StatusOK then
            ⟨some (Error.errorf
              ("expected status code " ++ fmtD StatusOK ++ " but got " ++ fmtD res.StatusCode)), t⟩
          else ⟨none, t⟩

/-! ## `PayloadTemplateID` and `sha256.Sum256` -/

/-- The bytes of the UTF-8 encoding of a character, which are its bytes in the Go string. -/
def utf8Char (c : Char) : List Nat :=
  let n := c.toNat
  if n < 0x80 then [n]
  else if n < 0x800 then [0xC0 + n / 0x40, 0x80 + n % 0x40]
  else if n < 0x10000 then [0xE0 + n / 0x1000, 0x80 + n / 0x40 % 0x40, 0x80 + n % 0x40]
  else [0xF0 + n / 0x40000, 0x80 + n / 0x1000 % 0x40, 0x80 + n / 0x40 % 0x40, 0x80 + n % 0x40]

/-- The conversion `[]byte(s)`. -/
def bytesOf (s : String) : List Nat := s.data.flatMap utf8Char

namespace SHA256

/-- Rotation of a 32-bit word to the right. -/
def rotr (x n : Nat) : Nat := (x >>> n ||| x <<< (32 - n)) % 2 ^ 32

/-- The choice function `Ch`. -/
def ch (x y z : Nat) : Nat := (x &&& y) ^^^ ((2 ^ 32 - 1 - x) &&& z)
/-- The majority function `Maj`. -/
def maj (x y z : Nat) : Nat := (x &&& y) ^^^ (x &&& z) ^^^ (y &&& z)
/-- The function `Σ0`. -/
def bigSigma0 (x : Nat) : Nat := rotr x 2 ^^^ rotr x 13 ^^^ rotr x 22
/-- The function `Σ1`. -/
def bigSigma1 (x : Nat) : Nat := rotr x 6 ^^^ rotr x 11 ^^^ rotr x 25
/-- The function `σ0`. -/
def smallSigma0 (x : Nat) : Nat := rotr x 7 ^^^ rotr x 18 ^^^ x >>> 3
/-- The function `σ1`. -/
def smallSigma1 (x : Nat) : Nat := rotr x 17 ^^^ rotr x 19 ^^^ x >>> 10

/-- The round constants. -/
def K : List Nat := [
  0x428a2f98, 0x71374491, 0xb5c0fbcf, 0xe9b5dba5, 0x3956c25b, 0x59f111f1, 0x923f82a4, 0xab1c5ed5,
  0xd807aa98, 0x12835b01, 0x243185be, 0x550c7dc3, 0x72be5d74, 0x80deb1fe, 0x9bdc06a7, 0xc19bf174,
  0xe49b69c1, 0xefbe4786, 0x0fc19dc6, 0x240ca1cc, 0x2de92c6f, 0x4a7484aa, 0x5cb0a9dc, 0x76f988da,
  0x983e5152, 0xa831c66d, 0xb00327c8, 0xbf597fc7, 0xc6e00bf3, 0xd5a79147, 0x06ca6351, 0x14292967,
  0x27b70a85, 0x2e1b2138, 0x4d2c6dfc, 0x53380d13, 0x650a7354, 0x766a0abb, 0x81c2c92e, 0x92722c85,
  0xa2bfe8a1, 0xa81a664b, 0xc24b8b70, 0xc76c51a3, 0xd192e819, 0xd6990624, 0xf40e3585, 0x106aa070,
  0x19a4c116, 0x1e376c08, 0x2748774c, 0x34b0bcb5, 0x391c0cb3, 0x4ed8aa4a, 0x5b9cca4f, 0x682e6ff3,
  0x748f82ee, 0x78a5636f, 0x84c87814, 0x8cc70208, 0x90befffa, 0xa4506ceb, 0xbef9a3f7, 0xc67178f2]

/-- The eight working words. -/
structure State where
  a : Nat
  b : Nat
  c : Nat
  d : Nat
  e : Nat
  f : Nat
  g : Nat
  h : Nat
  deriving DecidableEq, Repr

/-- The initial hash value. -/
def init : State :=
  ⟨0x6a09e667, 0xbb67ae85, 0x3c6ef372, 0xa54ff53a, 0x510e527f, 0x9b05688c, 0x1f83d9ab, 0x5be0cd19⟩

/-- The padded message: the byte `0x80`, zero bytes up to 56 modulo 64, and the length of
the message in bits as eight big-endian bytes. -/
def pad (msg : List Nat) : List Nat :=
  let bits := msg.length * 8 % 2 ^ 64
  msg ++ [0x80] ++ List.replicate ((64 - (msg.length + 9) % 64) % 64) 0
    ++ (List.range 8).map (fun i => bits / 2 ^ (8 * (7 - i)) % 256)

/-- The big-endian 32-bit words of a block. -/
def words : List Nat → List Nat
  | b0 :: b1 :: b2 :: b3 :: rest => (b0 * 2 ^ 24 + b1 * 2 ^ 16 + b2 * 2 ^ 8 + b3) :: words rest
  | _ => []

/-- The message schedule, newest word first: `n` more words are added to `w`. -/
def schedule : Nat → List Nat → List Nat
  | 0, w => w
  | n + 1, w =>
    schedule n ((smallSigma1 (w.getD 1 0) + w.getD 6 0 + smallSigma0 (w.getD 14 0)
      + w.getD 15 0) % 2 ^ 32 :: w)

/-- One round with round constant `k` and schedule word `w`. -/
def round (s : State) (k w : Nat) : State :=
  let t1 := (s.h + bigSigma1 s.e + ch s.e s.f s.g + k + w) % 2 ^ 32
  let t2 := (bigSigma0 s.a + maj s.a s.b s.c) % 2 ^ 32
  ⟨(t1 + t2) % 2 ^ 32, s.a, s.b, s.c, (s.d + t1) % 2 ^ 32, s.e, s.f, s.g⟩

/-- The 64 rounds over a list of pairs of round constant and schedule word. -/
def rounds : State → List (Nat × Nat) → State
  | s, [] => s
  | s, (k, w) :: rest => rounds (round s k w) rest

/-- The compression of one 64-byte block into the hash value. -/
def compress (hv : State) (block : List Nat) : State :=
  let w := (schedule 48 (words block).reverse).reverse
  let s := rounds hv (K.zip w)
  ⟨(hv.a + s.a) % 2 ^ 32, (hv.b + s.b) % 2 ^ 32, (hv.c + s.c) % 2 ^ 32, (hv.d + s.d) % 2 ^ 32,
   (hv.e + s.e) % 2 ^ 32, (hv.f + s.f) % 2 ^ 32, (hv.g + s.g) % 2 ^ 32, (hv.h + s.h) % 2 ^ 32⟩

/-- The hash value after `n` blocks of the padded message. -/
def blocks : Nat → State → List Nat → State
  | 0, hv, _ => hv
  | n + 1, hv, bs => blocks n (compress hv (bs.take 64)) (bs.drop 64)

/-- The four big-endian bytes of a 32-bit word. -/
def wordBytes (x : Nat) : List Nat :=
  [x / 2 ^ 24 % 256, x / 2 ^ 16 % 256, x / 2 ^ 8 % 256, x % 256]

/-- The 32 bytes of a hash value. -/
def digest (s : State) : List Nat :=
  wordBytes s.a ++ wordBytes s.b ++ wordBytes s.c ++ wordBytes s.d ++
  wordBytes s.e ++ wordBytes s.f ++ wordBytes s.g ++ wordBytes s.h

/-- The hash value of a message: all blocks of the padded message are compressed in turn. -/
def final (data : List Nat) : State :=
  blocks ((pad data).length / 64) init (pad data)

/-- The function `sha256.Sum256` (FIPS 180-4). -/
def Sum256 (data : List Nat) : List Nat :=
  digest (final data)

end SHA256

/-- A hexadecimal digit in lower case. -/
def hexDigit (n : Nat) : Char := "0123456789abcdef".data.getD n '0'

/-- The `%x` verb of `fmt` on a byte array: two lower-case hexadecimal digits per byte. -/
def fmtX (bs : List Nat) : String :=
  String.mk (bs.flatMap (fun b => [hexDigit (b / 16), hexDigit (b % 16)]))

/-- The method `PayloadTemplateID`. -/
def PayloadTemplateID (c : AuthorizerOPAConfiguration) : String :=
  fmtX (SHA256.Sum256 (bytesOf c.Remote))

/-- A 32-bit word. -/
abbrev Word := Fin (2 ^ 32)

/-- The eight words of a hash value as 32-bit words. -/
def SHA256.State.key (s : SHA256.State) :
    Word × Word × Word × Word × Word × Word × Word × Word :=
  (⟨s.a % 2 ^ 32, Nat.mod_lt _ (Nat.two_pow_pos 32)⟩,
   ⟨s.b % 2 ^ 32, Nat.mod_lt _ (Nat.two_pow_pos 32)⟩,
   ⟨s.c % 2 ^ 32, Nat.mod_lt _ (Nat.two_pow_pos 32)⟩,
   ⟨s.d % 2 ^ 32, Nat.mod_lt _ (Nat.two_pow_pos 32)⟩,
   ⟨s.e % 2 ^ 32, Nat.mod_lt _ (Nat.two_pow_pos 32)⟩,
   ⟨s.f % 2 ^ 32, Nat.mod_lt _ (Nat.two_pow_pos 32)⟩,
   ⟨s.g % 2 ^ 32, Nat.mod_lt _ (Nat.two_pow_pos 32)⟩,
   ⟨s.h % 2 ^ 32, Nat.mod_lt _ (Nat.two_pow_pos 32)⟩)

/-! ## Worlds used to state and to instantiate the theorems -/

/-- The world `w` with every response body of the remote engine replaced. -/
def World.withBody (w : World) (f : OutRequest → String) : World :=
  { w with Do := fun req =>
      match w.Do req with
      | Except.error err => Except.error err
      | Except.ok res => Except.ok { res with Body := f req } }

/-- The world `w` with another answer of the provider to `AuthorizerIsEnabled`. -/
def World.setEnabled (w : World) (f : String → Bool) : World :=
  { w with c := { w.c with AuthorizerIsEnabled := f } }

/-- A provider that enables the authorizer `"opa"` or not, rejects the rule configuration
`"not json"`, and decodes every other one to a fixed remote endpoint. -/
def demoProvider (enabled : Bool) : Provider where
  AuthorizerIsEnabled := fun id => enabled && id == "opa"
  AuthorizerConfig := fun _ config =>
    if config = "not json" then Except.error (Error.ext "invalid character")
    else Except.ok ⟨"http://opa.test/v1/data/authz"⟩

/-- A world around `demoProvider` in which marshalling and URL parsing succeed and the
remote engine answers every request with the given status code and body. -/
def demoWorld (enabled : Bool) (status : Int) (body : String) : World where
  c := demoProvider enabled
  Marshal := fun _ => Except.ok "policy input"
  ParseURL := fun u => Except.ok u
  Do := fun _ => Except.ok ⟨status, body⟩

/-- A request `GET /widgets/1` with the given value of its `Authorization` header. -/
def demoRequest (authorization : String) : Request :=
  ⟨"GET", ⟨"/widgets/1"⟩, [("Authorization", [authorization])]⟩

/-- A request `GET /widgets/1` without an `Authorization` header. -/
def bareRequest : Request :=
  ⟨"GET", ⟨"/widgets/1"⟩, [("Accept", ["*/*"])]⟩

end Authz

namespace Authz

/-! ## Facts about the constants of `Authorize` -/

theorem canonical_content_type : CanonicalMIMEHeaderKey "Content-Type" = "Content-Type" := by
  decide

theorem canonical_authorization : CanonicalMIMEHeaderKey "authorization" = "Authorization" := by
  decide

theorem expected_message_head :
    "expected status code " ++ fmtD StatusOK ++ " but got " = "expected status code 200 but got " := by
  decide

/-- What `Authorize` returns once the configuration is resolved, the body marshalled, the
request built and a response received: the verdict depends on the status code alone. -/
theorem Authorize_of_response (w : World) (r : Request) (s : AuthenticationSession)
    (config : String) (rule : Rule) (c : AuthorizerOPAConfiguration) (body : String)
    (req0 : OutRequest) (res : Response)
    (hc : w.c.AuthorizerConfig GetID config = Except.ok c)
    (hm : w.Marshal (bodyJson r) = Except.ok body)
    (hn : NewRequest w "POST" c.Remote body = Except.ok req0)
    (hd : w.Do (req0.addHeader "Content-Type" "application/json") = Except.ok res) :
    Authorize w r s config rule =
      ⟨if res.StatusCode = 403 then some (Error.withStack ErrForbidden)
        else if res.StatusCode = 200 then none
        else some (Error.errorf ("expected status code 200 but got " ++ fmtD res.StatusCode)),
       [Event.authorizerConfig GetID config,
        Event.httpDo (req0.addHeader "Content-Type" "application/json"), Event.bodyClose]⟩ := by
  simp only [Authorize, Config, hc, hm, hn, hd, StatusForbidden, expected_message_head]
  by_cases h3 : res.StatusCode = 403
  · simp [h3]
  · by_cases h2 : res.StatusCode = 200
    · simp [h2, StatusOK]
    · simp [h3, h2, StatusOK]

/-- What `Authorize` returns when the provider fails to merge or decode. -/
theorem Authorize_of_config_error (w : World) (r : Request) (s : AuthenticationSession)
    (config : String) (rule : Rule) (cause : Error)
    (hc : w.c.AuthorizerConfig GetID config = Except.error cause) :
    Authorize w r s config rule =
      ⟨some (NewErrAuthorizerMisconfigured GetID cause),
       [Event.authorizerConfig GetID config]⟩ := by
  simp only [Authorize, Config, hc]

/-- Replacing the response bodies leaves the other collaborators as they are. -/
theorem NewRequest_withBody (w : World) (f : OutRequest → String) (method url body : String) :
    NewRequest (w.withBody f) method url body = NewRequest w method url body := rfl

/-! ## The pass of `strings.ReplaceAll` -/

/-- Skipping the rest of a matched occurrence resumes the pass right after it. -/
theorem replaceScan_skip (old new : List Char) (p t : List Char) :
    replaceScan old new p.length (p ++ t) = replaceScan old new 0 t := by
  induction p with
  | nil => rfl
  | cons c p ih => simpa [replaceScan] using ih

/-- At an occurrence of `old`, the pass writes `new` and goes on after the occurrence. -/
theorem replaceScan_match (old new t : List Char) (hne : old ≠ []) :
    replaceScan old new 0 (old ++ t) = new ++ replaceScan old new 0 t := by
  cases old with
  | nil => exact absurd rfl hne
  | cons o os =>
    have hp : (o :: os).isPrefixOf (o :: (os ++ t)) = true := by
      rw [List.isPrefixOf_iff_prefix]
      exact ⟨t, rfl⟩
    have hs := replaceScan_skip (o :: os) new os t
    show replaceScan (o :: os) new 0 (o :: (os ++ t)) = new ++ replaceScan (o :: os) new 0 t
    rw [replaceScan, if_pos hp]
    simp only [List.length_cons, Nat.add_sub_cancel]
    rw [hs]

/-- A subject without an occurrence of `old` is copied unchanged. -/
theorem replaceScan_no_occurrence (old new s : List Char) (h : ¬ old <:+: s) :
    replaceScan old new 0 s = s := by
  induction s with
  | nil => rfl
  | cons c cs ih =>
    have hp : old.isPrefixOf (c :: cs) = false := by
      rw [Bool.eq_false_iff]
      intro hp
      rw [List.isPrefixOf_iff_prefix] at hp
      exact h hp.isInfix
    have hcs : ¬ old <:+: cs := fun hi => h (List.infix_cons hi)
    simp [replaceScan, hp, ih hcs]

/-- Before the first occurrence of `old` the subject is copied; the pass then writes `new`
and goes on after that occurrence. -/
theorem replaceScan_first (old new a b : List Char) (hne : old ≠ [])
    (h : ¬ old <:+: a ++ old.dropLast) :
    replaceScan old new 0 (a ++ old ++ b) = a ++ new ++ replaceScan old new 0 b := by
  induction a with
  | nil => simpa using replaceScan_match old new b hne
  | cons c a ih =>
    have hsplit : (c :: a) ++ old ++ b
        = ((c :: a) ++ old.dropLast) ++ ([old.getLast hne] ++ b) := by
      conv_lhs => rw [← List.dropLast_append_getLast hne]
      simp
    have hp : old.isPrefixOf (c :: (a ++ old ++ b)) = false := by
      rw [Bool.eq_false_iff]
      intro hp
      rw [List.isPrefixOf_iff_prefix] at hp
      have h1 : old <+: ((c :: a) ++ old.dropLast) ++ ([old.getLast hne] ++ b) := by
        rw [← hsplit]
        simpa using hp
      have h2 : (c :: a) ++ old.dropLast
          <+: ((c :: a) ++ old.dropLast) ++ ([old.getLast hne] ++ b) :=
        List.prefix_append _ _
      have hlen : old.length ≤ ((c :: a) ++ old.dropLast).length := by
        simp only [List.length_append, List.length_cons, List.length_dropLast]
        omega
      exact h (List.prefix_of_prefix_length_le h1 h2 hlen).isInfix
    have ha : ¬ old <:+: a ++ old.dropLast := fun hi => h (List.infix_cons hi)
    show replaceScan old new 0 (c :: (a ++ old ++ b))
      = c :: (a ++ new ++ replaceScan old new 0 b)
    rw [replaceScan, if_neg (Bool.eq_false_iff.mp hp), ih ha]

/-- Stripping `"Bearer "` is one pass of `replaceScan` that writes nothing at a match. -/
theorem ReplaceAll_bearer (s : String) :
    ReplaceAll s "Bearer " "" = String.mk (replaceScan "Bearer ".data [] 0 s.data) := by
  have hne : "Bearer ".data ≠ [] := by decide
  simp [ReplaceAll, hne]

/-- A value without an occurrence of `"Bearer "` is left unchanged. -/
theorem ReplaceAll_bearer_of_not_contains (v : String) (h : ¬ Contains v "Bearer ") :
    ReplaceAll v "Bearer " "" = v := by
  rw [ReplaceAll_bearer, replaceScan_no_occurrence _ _ _ h]

/-- The token is read from the first value stored under `Authorization`. -/
theorem token_of_lookup (r : Request) (v : String) (rest : List String)
    (h : r.Header.lookup "Authorization" = some (v :: rest)) :
    token r = ReplaceAll v "Bearer " "" := by
  simp [token, Header.Get, canonical_authorization, h]

/-- Whatever `Authorize` sends is a `POST` to the parsed remote URL, with the single header
`Content-Type: application/json` and the marshalled policy input as its body. -/
theorem Authorize_sends (w : World) (r : Request) (s : AuthenticationSession)
    (config : String) (rule : Rule) (req : OutRequest)
    (h : Event.httpDo req ∈ (Authorize w r s config rule).trace) :
    ∃ c u, w.c.AuthorizerConfig GetID config = Except.ok c ∧
      w.ParseURL c.Remote = Except.ok u ∧
      w.Marshal (bodyJson r) = Except.ok req.Body ∧
      req = ⟨"POST", u, [("Content-Type", ["application/json"])], req.Body⟩ := by
  cases hc : w.c.AuthorizerConfig GetID config with
  | error e => simp [Authorize, Config, hc] at h
  | ok c =>
    cases hm : w.Marshal (bodyJson r) with
    | error e => simp [Authorize, Config, hc, hm] at h
    | ok body =>
      cases hu : w.ParseURL c.Remote with
      | error e => simp [Authorize, Config, NewRequest, hc, hm, hu] at h
      | ok u =>
        have hn : NewRequest w "POST" c.Remote body = Except.ok ⟨"POST", u, [], body⟩ := by
          simp [NewRequest, hu]
        have hreq : req = ⟨"POST", u, [("Content-Type", ["application/json"])], body⟩ := by
          cases hd : w.Do (OutRequest.addHeader ⟨"POST", u, [], body⟩ "Content-Type"
              "application/json") with
          | error e =>
            simp [Authorize, Config, hc, hm, hn, hd] at h
            simpa [OutRequest.addHeader, canonical_content_type] using h
          | ok res =>
            rw [Authorize_of_response w r s config rule c body _ res hc hm hn hd] at h
            simp at h
            simpa [OutRequest.addHeader, canonical_content_type] using h
        refine ⟨c, u, rfl, hu, ?_, ?_⟩
        · rw [hreq]
        · rw [hreq]

/-! ## The verdict of `Authorize` -/

/-- Claim C1 (fail-closed). `Authorize` returns `nil` exactly when the configuration was
resolved, the policy input marshalled, the outbound request built and sent without a
transport error, and the status code of the response is 200; and replacing the bodies of
the remote engine's responses changes nothing of what `Authorize` returns or does. -/
theorem Authorize_success_iff (w : World) (r : Request) (s : AuthenticationSession)
    (config : String) (rule : Rule) :
    ((Authorize w r s config rule).err = none ↔
      ∃ c body req0 res,
        w.c.AuthorizerConfig GetID config = Except.ok c ∧
        w.Marshal (bodyJson r) = Except.ok body ∧
        NewRequest w "POST" c.Remote body = Except.ok req0 ∧
        w.Do (req0.addHeader "Content-Type" "application/json") = Except.ok res ∧
        res.StatusCode = 200) ∧
    (∀ f : OutRequest → String,
      Authorize (w.withBody f) r s config rule = Authorize w r s config rule) := by
  constructor
  · constructor
    · intro h
      cases hc : w.c.AuthorizerConfig GetID config with
      | error e => simp [Authorize, Config, hc] at h
      | ok c =>
        cases hm : w.Marshal (bodyJson r) with
        | error e => simp [Authorize, Config, hc, hm] at h
        | ok body =>
          cases hn : NewRequest w "POST" c.Remote body with
          | error e => simp [Authorize, Config, hc, hm, hn] at h
          | ok req0 =>
            cases hd : w.Do (req0.addHeader "Content-Type" "application/json") with
            | error e => simp [Authorize, Config, hc, hm, hn, hd] at h
            | ok res =>
              refine ⟨c, body, req0, res, rfl, rfl, hn, hd, ?_⟩
              rw [Authorize_of_response w r s config rule c body req0 res hc hm hn hd] at h
              by_cases h3 : res.StatusCode = 403
              · simp [h3] at h
              · by_cases h2 : res.StatusCode = 200
                · exact h2
                · simp [h3, h2] at h
    · rintro ⟨c, body, req0, res, hc, hm, hn, hd, h2⟩
      rw [Authorize_of_response w r s config rule c body req0 res hc hm hn hd]
      simp [h2]
  · intro f
    have hc2 : (w.withBody f).c.AuthorizerConfig GetID config
        = w.c.AuthorizerConfig GetID config := rfl
    have hm2 : (w.withBody f).Marshal (bodyJson r) = w.Marshal (bodyJson r) := rfl
    cases hc : w.c.AuthorizerConfig GetID config with
    | error e => simp only [Authorize, Config, hc2, hc]
    | ok c =>
      cases hm : w.Marshal (bodyJson r) with
      | error e => simp only [Authorize, Config, hc2, hc, hm2, hm]
      | ok body =>
        cases hn : NewRequest w "POST" c.Remote body with
        | error e => simp only [Authorize, Config, hc2, hc, hm2, hm, NewRequest_withBody, hn]
        | ok req0 =>
          cases hd : w.Do (req0.addHeader "Content-Type" "application/json") with
          | error e =>
            have hd2 : (w.withBody f).Do (req0.addHeader "Content-Type" "application/json")
                = Except.error e := by simp [World.withBody, hd]
            simp only [Authorize, Config, hc2, hc, hm2, hm, NewRequest_withBody, hn, hd, hd2]
          | ok res =>
            have hd2 : (w.withBody f).Do (req0.addHeader "Content-Type" "application/json")
                = Except.ok { res with
                    Body := f (req0.addHeader "Content-Type" "application/json") } := by
              simp [World.withBody, hd]
            rw [Authorize_of_response w r s config rule c body req0 res hc hm hn hd,
              Authorize_of_response (w.withBody f) r s config rule c body req0 _
                (hc2.trans hc) (hm2.trans hm) ((NewRequest_withBody w f _ _ _).trans hn) hd2]

/-- Claim C2. Once the configuration is resolved and the outbound call has produced a
response, `Authorize` returns the forbidden error `errors.WithStack(helper.ErrForbidden)`
when the status code is 403, and for no other status code: every other code that is not 200
gives an error that is not the forbidden one. -/
theorem Authorize_forbidden_iff (w : World) (r : Request) (s : AuthenticationSession)
    (config : String) (rule : Rule) (c : AuthorizerOPAConfiguration) (body : String)
    (req0 : OutRequest) (res : Response)
    (hc : w.c.AuthorizerConfig GetID config = Except.ok c)
    (hm : w.Marshal (bodyJson r) = Except.ok body)
    (hn : NewRequest w "POST" c.Remote body = Except.ok req0)
    (hd : w.Do (req0.addHeader "Content-Type" "application/json") = Except.ok res) :
    ((Authorize w r s config rule).err = some (Error.withStack ErrForbidden)
      ↔ res.StatusCode = 403) ∧
    (res.StatusCode ≠ 403 → res.StatusCode ≠ 200 →
      ∃ msg, (Authorize w r s config rule).err = some (Error.errorf msg)) := by
  rw [Authorize_of_response w r s config rule c body req0 res hc hm hn hd]
  by_cases h3 : res.StatusCode = 403
  · simp [h3]
  · by_cases h2 : res.StatusCode = 200
    · simp [h2]
    · simp [h3, h2]

/-- Claim C2, at a remote engine that answers 403. -/
theorem Authorize_forbidden_iff_witness :
    (Authorize (demoWorld true 403 "denied") (demoRequest "Bearer abc123") ⟨"alice"⟩ ""
        ⟨"rule-1"⟩).err = some (Error.withStack ErrForbidden) ∧
    (Authorize (demoWorld true 403 "denied") (demoRequest "Bearer abc123") ⟨"alice"⟩ ""
        ⟨"rule-1"⟩).err ≠
      (Authorize (demoWorld true 500 "denied") (demoRequest "Bearer abc123") ⟨"alice"⟩ ""
        ⟨"rule-1"⟩).err :=
  ⟨(Authorize_forbidden_iff (demoWorld true 403 "denied") (demoRequest "Bearer abc123")
      ⟨"alice"⟩ "" ⟨"rule-1"⟩ ⟨"http://opa.test/v1/data/authz"⟩ "policy input"
      ⟨"POST", "http://opa.test/v1/data/authz", [], "policy input"⟩ ⟨403, "denied"⟩
      rfl rfl rfl rfl).1.2 rfl, by decide⟩

/-- Claim C3. Once the configuration is resolved and the outbound call has produced a
response whose status code `n` is neither 200 nor 403, `Authorize` returns the error of
`errors.Errorf` with the message "expected status code 200 but got n", which is neither the
forbidden error nor `nil`. -/
theorem Authorize_unexpected_status (w : World) (r : Request) (s : AuthenticationSession)
    (config : String) (rule : Rule) (c : AuthorizerOPAConfiguration) (body : String)
    (req0 : OutRequest) (res : Response)
    (hc : w.c.AuthorizerConfig GetID config = Except.ok c)
    (hm : w.Marshal (bodyJson r) = Except.ok body)
    (hn : NewRequest w "POST" c.Remote body = Except.ok req0)
    (hd : w.Do (req0.addHeader "Content-Type" "application/json") = Except.ok res)
    (h200 : res.StatusCode ≠ 200) (h403 : res.StatusCode ≠ 403) :
    (Authorize w r s config rule).err =
      some (Error.errorf ("expected status code 200 but got " ++ fmtD res.StatusCode)) ∧
    (Authorize w r s config rule).err ≠ some (Error.withStack ErrForbidden) ∧
    (Authorize w r s config rule).err ≠ none := by
  rw [Authorize_of_response w r s config rule c body req0 res hc hm hn hd]
  simp [h200, h403]

/-- Claim C3, at a remote engine that answers 500. -/
theorem Authorize_unexpected_status_witness :
    (500 : Int) ≠ 200 ∧ (500 : Int) ≠ 403 ∧
    (Authorize (demoWorld true 500 "oops") (demoRequest "Bearer abc123") ⟨"alice"⟩ ""
        ⟨"rule-1"⟩).err = some (Error.errorf "expected status code 200 but got 500") :=
  ⟨by decide, by decide,
    (Authorize_unexpected_status (demoWorld true 500 "oops") (demoRequest "Bearer abc123")
      ⟨"alice"⟩ "" ⟨"rule-1"⟩ ⟨"http://opa.test/v1/data/authz"⟩ "policy input"
      ⟨"POST", "http://opa.test/v1/data/authz", [], "policy input"⟩ ⟨500, "oops"⟩
      rfl rfl rfl rfl (by decide) (by decide)).1⟩

/-! ## Enablement and configuration resolution -/

/-- Claim C4 as stated fails for `Authorize`: with the authorizer `"opa"` reported as not
enabled, `Authorize` still has the provider merge and decode the configuration, sends the
outbound request and, on status 200, returns `nil`. -/
theorem Authorize_disabled_counterexample :
    (demoWorld false 200 "").c.AuthorizerIsEnabled "opa" = false ∧
    Authorize (demoWorld false 200 "") (demoRequest "Bearer abc123") ⟨"alice"⟩ "" ⟨"rule-1"⟩ =
      ⟨none, [Event.authorizerConfig "opa" "",
        Event.httpDo ⟨"POST", "http://opa.test/v1/data/authz",
          [("Content-Type", ["application/json"])], "policy input"⟩,
        Event.bodyClose]⟩ := by
  decide

/-- Claim C4, amended. With the authorizer `"opa"` reported as not enabled, `Validate` fails
with the `AuthorizerNotEnabled` error for every rule configuration, and the enablement
query is the only call it makes: the provider's merge and decode is not invoked.
`Authorize` does not consult enablement: it returns and does the same whatever the provider
answers to `AuthorizerIsEnabled`. -/
theorem Validate_not_enabled (w : World) (config : String)
    (h : w.c.AuthorizerIsEnabled "opa" = false) :
    Validate w config = ⟨some (NewErrAuthorizerNotEnabled "opa"), [Event.isEnabled "opa"]⟩ ∧
    (∀ ev ∈ (Validate w config).trace, ev.isDecode = false) ∧
    (∀ (f : String → Bool) (r : Request) (s : AuthenticationSession) (rule : Rule),
      Authorize (w.setEnabled f) r s config rule = Authorize w r s config rule) := by
  have hv : Validate w config
      = ⟨some (NewErrAuthorizerNotEnabled "opa"), [Event.isEnabled "opa"]⟩ := by
    simp [Validate, GetID, h]
  refine ⟨hv, ?_, fun _ _ _ _ => rfl⟩
  rw [hv]
  simp [Event.isDecode]

/-- Claim C4 amended, at a provider that reports `"opa"` as not enabled. -/
theorem Validate_not_enabled_witness :
    (demoWorld false 200 "").c.AuthorizerIsEnabled "opa" = false ∧
    Validate (demoWorld false 200 "") "not json" =
      ⟨some (NewErrAuthorizerNotEnabled "opa"), [Event.isEnabled "opa"]⟩ :=
  ⟨rfl, (Validate_not_enabled (demoWorld false 200 "") "not json" rfl).1⟩

/-- Claim C5 as stated fails: with the authorizer not enabled and a rule configuration that
decodes, `Validate` returns an error although the configuration step of `Authorize`
succeeds (and `Authorize` goes on to return `nil`). -/
theorem Validate_dry_run_counterexample :
    (Validate (demoWorld false 200 "") "").err = some (NewErrAuthorizerNotEnabled "opa") ∧
    (Config (demoWorld false 200 "") "").1 = Except.ok ⟨"http://opa.test/v1/data/authz"⟩ ∧
    (Authorize (demoWorld false 200 "") bareRequest ⟨"alice"⟩ "" ⟨"rule-1"⟩).err = none := by
  refine ⟨by decide, rfl, by decide⟩

/-- Claim C5, amended. `Validate` returns an error exactly when the authorizer is not
enabled or the configuration step `Config` fails, so for an enabled authorizer exactly when
`Authorize` with the same configuration fails at its call to `Config`; when `Config` fails,
`Authorize` returns that error without an outbound call; and `Validate` never performs an
outbound HTTP call. -/
theorem Validate_error_iff (w : World) (config : String) :
    ((Validate w config).err ≠ none ↔
      (w.c.AuthorizerIsEnabled GetID = false ∨ ∃ e, (Config w config).1 = Except.error e)) ∧
    (∀ e, (Config w config).1 = Except.error e →
      ∀ (r : Request) (s : AuthenticationSession) (rule : Rule),
        Authorize w r s config rule = ⟨some e, [Event.authorizerConfig GetID config]⟩) ∧
    (∀ ev ∈ (Validate w config).trace, ev.isHttp = false) := by
  refine ⟨?_, ?_, ?_⟩
  · cases he : w.c.AuthorizerIsEnabled GetID with
    | false => simp [Validate, he]
    | true =>
      cases hc : w.c.AuthorizerConfig GetID config with
      | error e => simp [Validate, Config, he, hc]
      | ok c => simp [Validate, Config, he, hc]
  · intro e he r s rule
    cases hc : w.c.AuthorizerConfig GetID config with
    | error e2 =>
      simp only [Config, hc] at he
      rw [Authorize_of_config_error w r s config rule e2 hc]
      cases he
      rfl
    | ok c => simp [Config, hc] at he
  · cases he : w.c.AuthorizerIsEnabled GetID with
    | false => simp [Validate, he, Event.isHttp]
    | true =>
      cases hc : w.c.AuthorizerConfig GetID config with
      | error e => simp [Validate, Config, he, hc, Event.isHttp]
      | ok c => simp [Validate, Config, he, hc, Event.isHttp]

/-- Claim C6 as stated fails for `Validate`: with the authorizer not enabled, a rule
configuration that the provider cannot decode makes `Validate` fail with the
`AuthorizerNotEnabled` error, not with `AuthorizerMisconfigured`. -/
theorem Validate_misconfigured_counterexample :
    (demoWorld false 200 "").c.AuthorizerConfig GetID "not json"
      = Except.error (Error.ext "invalid character") ∧
    Validate (demoWorld false 200 "") "not json" =
      ⟨some (NewErrAuthorizerNotEnabled "opa"), [Event.isEnabled "opa"]⟩ ∧
    (Validate (demoWorld false 200 "") "not json").err ≠
      some (NewErrAuthorizerMisconfigured "opa" (Error.ext "invalid character")) := by
  refine ⟨rfl, by decide, by decide⟩

/-- Claim C6, amended. For every rule configuration that the provider fails to merge or
decode, `Authorize` fails with the `AuthorizerMisconfigured` error wrapping the provider's
cause and issues no outbound HTTP request, and so does `Validate` when the authorizer is
enabled. -/
theorem misconfigured_of_provider_error (w : World) (config : String) (cause : Error)
    (hc : w.c.AuthorizerConfig GetID config = Except.error cause) :
    (∀ (r : Request) (s : AuthenticationSession) (rule : Rule),
      Authorize w r s config rule =
        ⟨some (NewErrAuthorizerMisconfigured GetID cause),
          [Event.authorizerConfig GetID config]⟩ ∧
      ∀ ev ∈ (Authorize w r s config rule).trace, ev.isHttp = false) ∧
    (w.c.AuthorizerIsEnabled GetID = true →
      Validate w config =
        ⟨some (NewErrAuthorizerMisconfigured GetID cause),
          [Event.isEnabled GetID, Event.authorizerConfig GetID config]⟩) := by
  constructor
  · intro r s rule
    rw [Authorize_of_config_error w r s config rule cause hc]
    simp [Event.isHttp]
  · intro he
    simp [Validate, Config, he, hc]

/-- Claim C6 amended, at an enabled provider that rejects the configuration `not json`. -/
theorem misconfigured_of_provider_error_witness :
    (demoWorld true 200 "").c.AuthorizerConfig GetID "not json"
      = Except.error (Error.ext "invalid character") ∧
    Authorize (demoWorld true 200 "") bareRequest ⟨"alice"⟩ "not json" ⟨"rule-1"⟩ =
      ⟨some (NewErrAuthorizerMisconfigured "opa" (Error.ext "invalid character")),
        [Event.authorizerConfig "opa" "not json"]⟩ ∧
    Validate (demoWorld true 200 "") "not json" =
      ⟨some (NewErrAuthorizerMisconfigured "opa" (Error.ext "invalid character")),
        [Event.isEnabled "opa", Event.authorizerConfig "opa" "not json"]⟩ :=
  ⟨rfl,
    ((misconfigured_of_provider_error (demoWorld true 200 "") "not json"
      (Error.ext "invalid character") rfl).1 bareRequest ⟨"alice"⟩ ⟨"rule-1"⟩).1,
    (misconfigured_of_provider_error (demoWorld true 200 "") "not json"
      (Error.ext "invalid character") rfl).2 rfl⟩

/-! ## The policy input -/

/-- Claim C7. For every path `p`, method `m` and credential `t` without an occurrence of
`"Bearer "`, a request whose `Authorization` header is `Bearer t` gives the policy input
with the entry `input` holding exactly `path = p`, `method = m` and `token = t`; and every
request that `Authorize` sends for it is a `POST` whose body is what `json.Marshal` made of
that document. -/
theorem bodyJson_bearer (p m t : String) (rest : List String) (hdr : Header)
    (hh : hdr.lookup "Authorization" = some (("Bearer " ++ t) :: rest))
    (ht : ¬ Contains t "Bearer ") :
    bodyJson ⟨m, ⟨p⟩, hdr⟩ =
      JsonValue.obj [("input", JsonValue.obj [
        ("path", JsonValue.str p), ("method", JsonValue.str m), ("token", JsonValue.str t)])] ∧
    ∀ (w : World) (s : AuthenticationSession) (config : String) (rule : Rule)
      (req : OutRequest),
      Event.httpDo req ∈ (Authorize w ⟨m, ⟨p⟩, hdr⟩ s config rule).trace →
        req.Method = "POST" ∧
        w.Marshal (JsonValue.obj [("input", JsonValue.obj [
          ("path", JsonValue.str p), ("method", JsonValue.str m),
          ("token", JsonValue.str t)])]) = Except.ok req.Body := by
  have htok : token ⟨m, ⟨p⟩, hdr⟩ = t := by
    rw [token_of_lookup ⟨m, ⟨p⟩, hdr⟩ _ rest hh, ReplaceAll_bearer]
    have hne : "Bearer ".data ≠ [] := by decide
    have h1 := replaceScan_match "Bearer ".data [] t.data hne
    rw [String.data_append, h1, replaceScan_no_occurrence _ _ _ ht]
    rfl
  have hdoc : bodyJson ⟨m, ⟨p⟩, hdr⟩ =
      JsonValue.obj [("input", JsonValue.obj [
        ("path", JsonValue.str p), ("method", JsonValue.str m),
        ("token", JsonValue.str t)])] := by
    simp only [bodyJson, htok]
  refine ⟨hdoc, ?_⟩
  intro w s config rule req hreq
  obtain ⟨c, u, _, _, hm, hr⟩ := Authorize_sends w _ s config rule req hreq
  rw [hdoc] at hm
  refine ⟨?_, hm⟩
  rw [hr]

/-- Claim C7, at `GET /widgets/1` with `Authorization: Bearer abc123`. -/
theorem bodyJson_bearer_witness :
    ¬ Contains "abc123" "Bearer " ∧
    bodyJson ⟨"GET", ⟨"/widgets/1"⟩, [("Authorization", ["Bearer abc123"])]⟩ =
      JsonValue.obj [("input", JsonValue.obj [
        ("path", JsonValue.str "/widgets/1"), ("method", JsonValue.str "GET"),
        ("token", JsonValue.str "abc123")])] :=
  ⟨by decide,
    (bodyJson_bearer "/widgets/1" "GET" "abc123" [] [("Authorization", ["Bearer abc123"])]
      (by decide) (by decide)).1⟩

/-- Claim C8 as stated fails: a request with `Authorization: Basic dXNlcjpwdw==`, a value
that does not start with `"Bearer "`, gets that whole value as its token, not the empty
string. -/
theorem token_basic_counterexample :
    ¬ "Bearer ".data <+: "Basic dXNlcjpwdw==".data ∧
    token (demoRequest "Basic dXNlcjpwdw==") = "Basic dXNlcjpwdw==" ∧
    token (demoRequest "Basic dXNlcjpwdw==") ≠ "" := by
  decide

/-- Claim C8, amended. When the `Authorization` header is absent (or has no value) the
token is the empty string; a header value without an occurrence of `"Bearer "`, as every
value of another scheme that does not mention it, is passed through unchanged as the
token. -/
theorem token_without_bearer (r : Request) :
    (r.Header.lookup "Authorization" = none ∨ r.Header.lookup "Authorization" = some [] →
      token r = "") ∧
    (∀ (v : String) (rest : List String),
      r.Header.lookup "Authorization" = some (v :: rest) → ¬ Contains v "Bearer " →
        token r = v) := by
  constructor
  · intro h
    have hget : r.Header.Get "authorization" = "" := by
      rcases h with h | h <;> simp [Header.Get, canonical_authorization, h]
    rw [token, hget]
    decide
  · intro v rest h hv
    rw [token_of_lookup r v rest h, ReplaceAll_bearer_of_not_contains v hv]

/-- Claim C8 amended, at a request without the header and at a `Basic` header. -/
theorem token_without_bearer_witness :
    bareRequest.Header.lookup "Authorization" = none ∧ token bareRequest = "" ∧
    token (demoRequest "Basic dXNlcjpwdw==") = "Basic dXNlcjpwdw==" :=
  ⟨by decide, (token_without_bearer bareRequest).1 (Or.inl (by decide)),
    (token_without_bearer (demoRequest "Basic dXNlcjpwdw==")).2 "Basic dXNlcjpwdw==" []
      (by decide) (by decide)⟩

/-- Claim C10 as stated fails: for the header value `BearBearer er abc` the pass removes
the one occurrence it meets, and the token is `Bearer abc`, which contains `"Bearer "`;
stripping it once more changes it to `abc`. -/
theorem token_nested_counterexample :
    token (demoRequest "BearBearer er abc") = "Bearer abc" ∧
    Contains (token (demoRequest "BearBearer er abc")) "Bearer " ∧
    ReplaceAll (token (demoRequest "BearBearer er abc")) "Bearer " "" = "abc" := by
  decide

/-- Claim C10, amended. The literal `"Bearer "` is removed at any position, not only as a
prefix, in one left-to-right pass over the header value: the text before the first
occurrence is kept, the occurrence is dropped, and the pass goes on after it; a value
without an occurrence is left unchanged.  The token of a request is the result of this
pass on the header value. -/
theorem ReplaceAll_bearer_pass :
    (∀ r : Request, token r = ReplaceAll (r.Header.Get "authorization") "Bearer " "") ∧
    (∀ a b : String, ¬ Contains (a ++ "Bearer") "Bearer " →
      ReplaceAll (a ++ "Bearer " ++ b) "Bearer " "" = a ++ ReplaceAll b "Bearer " "") ∧
    (∀ h : String, ¬ Contains h "Bearer " → ReplaceAll h "Bearer " "" = h) := by
  refine ⟨fun _ => rfl, ?_, ReplaceAll_bearer_of_not_contains⟩
  intro a b hab
  have hne : "Bearer ".data ≠ [] := by decide
  have hdl : "Bearer ".data.dropLast = "Bearer".data := by decide
  have h1 := replaceScan_first "Bearer ".data [] a.data b.data hne
    (by rw [hdl]; simpa [Contains] using hab)
  rw [ReplaceAll_bearer, ReplaceAll_bearer]
  apply String.ext
  simp only [String.data_append]
  rw [h1]
  simp

/-- Claim C10 amended, at a value with `"Bearer "` in the middle and at one without. -/
theorem ReplaceAll_bearer_pass_witness :
    ¬ Contains ("x " ++ "Bearer") "Bearer " ∧
    ReplaceAll ("x " ++ "Bearer " ++ "y Bearer z") "Bearer " ""
      = "x " ++ ReplaceAll "y Bearer z" "Bearer " "" ∧
    ReplaceAll "abc123" "Bearer " "" = "abc123" :=
  ⟨by decide, ReplaceAll_bearer_pass.2.1 "x " "y Bearer z" (by decide),
    ReplaceAll_bearer_pass.2.2 "abc123" (by decide)⟩

/-! ## The fingerprint of a configuration -/

/-- The model of `sha256.Sum256` and of `%x` on the test vector `abc` of FIPS 180-4. -/
theorem PayloadTemplateID_abc :
    PayloadTemplateID ⟨"abc"⟩
      = "ba7816bf8f01cfea414140de5dae2223b00361a396177a9cb410ff61f20015ad" := by
  decide

/-- The bytes of a word depend on its low 32 bits only. -/
theorem wordBytes_mod (x : Nat) : SHA256.wordBytes (x % 2 ^ 32) = SHA256.wordBytes x := by
  simp only [SHA256.wordBytes]
  have h1 : x % 2 ^ 32 / 2 ^ 24 % 256 = x / 2 ^ 24 % 256 := by omega
  have h2 : x % 2 ^ 32 / 2 ^ 16 % 256 = x / 2 ^ 16 % 256 := by omega
  have h3 : x % 2 ^ 32 / 2 ^ 8 % 256 = x / 2 ^ 8 % 256 := by omega
  have h4 : x % 2 ^ 32 % 256 = x % 256 := by omega
  rw [h1, h2, h3, h4]

/-- The digest is determined by the eight 32-bit words of the hash value. -/
theorem digest_eq_of_key (s1 s2 : SHA256.State) (h : s1.key = s2.key) :
    SHA256.digest s1 = SHA256.digest s2 := by
  simp only [SHA256.State.key, Prod.mk.injEq, Fin.mk.injEq] at h
  obtain ⟨ha, hb, hc, hd, he, hf, hg, hh⟩ := h
  simp only [SHA256.digest]
  rw [← wordBytes_mod s1.a, ← wordBytes_mod s1.b, ← wordBytes_mod s1.c, ← wordBytes_mod s1.d,
    ← wordBytes_mod s1.e, ← wordBytes_mod s1.f, ← wordBytes_mod s1.g, ← wordBytes_mod s1.h,
    ha, hb, hc, hd, he, hf, hg, hh,
    wordBytes_mod s2.a, wordBytes_mod s2.b, wordBytes_mod s2.c, wordBytes_mod s2.d,
    wordBytes_mod s2.e, wordBytes_mod s2.f, wordBytes_mod s2.g, wordBytes_mod s2.h]

/-- Claim C9 as stated fails: the fingerprint is made from a 256-bit digest while the
values of `remote` are unbounded, so it is not true that two configurations have the same
fingerprint only if their `remote` values are equal. -/
theorem PayloadTemplateID_not_injective :
    ¬ ∀ c1 c2 : AuthorizerOPAConfiguration,
      (PayloadTemplateID c1 = PayloadTemplateID c2 ↔ c1.Remote = c2.Remote) := by
  intro h
  have hinj : Function.Injective
      (fun s : String => (SHA256.final (bytesOf s)).key) := by
    intro s1 s2 e
    have hd := digest_eq_of_key _ _ e
    have hid : PayloadTemplateID ⟨s1⟩ = PayloadTemplateID ⟨s2⟩ := by
      simp only [PayloadTemplateID, SHA256.Sum256, hd]
    exact (h ⟨s1⟩ ⟨s2⟩).1 hid
  exact not_injective_infinite_finite _ hinj

/-- Claim C9, amended. The fingerprint is a function of `remote` alone: configurations with
the same `remote` have the same fingerprint, so different fingerprints come from different
`remote` values; and every fingerprint is 64 characters long, the hexadecimal form of a
256-bit digest. -/
theorem PayloadTemplateID_deterministic (c1 c2 : AuthorizerOPAConfiguration) :
    (c1.Remote = c2.Remote → PayloadTemplateID c1 = PayloadTemplateID c2) ∧
    (PayloadTemplateID c1 ≠ PayloadTemplateID c2 → c1.Remote ≠ c2.Remote) ∧
    (PayloadTemplateID c1).length = 64 := by
  refine ⟨fun h => ?_, fun h e => h ?_, ?_⟩
  · simp only [PayloadTemplateID, h]
  · simp only [PayloadTemplateID, e]
  · simp [PayloadTemplateID, fmtX, SHA256.Sum256, SHA256.digest, SHA256.wordBytes,
      String.length]

/-- Claim C9 amended, at two configurations with the same `remote` and at two with
different ones. -/
theorem PayloadTemplateID_deterministic_witness :
    PayloadTemplateID ⟨"http://opa.test/a"⟩ = PayloadTemplateID ⟨"http://opa.test/a"⟩ ∧
    PayloadTemplateID ⟨"http://opa.test/a"⟩ ≠ PayloadTemplateID ⟨"http://opa.test/b"⟩ ∧
    ("http://opa.test/a" : String) ≠ "http://opa.test/b" :=
  ⟨(PayloadTemplateID_deterministic ⟨"http://opa.test/a"⟩ ⟨"http://opa.test/a"⟩).1 rfl,
    by decide,
    (PayloadTemplateID_deterministic ⟨"http://opa.test/a"⟩ ⟨"http://opa.test/b"⟩).2.1
      (by decide)⟩

end Authz
